import Mathlib

/-!
# Clock configuration of the STM32F334 (`src/stm32f334.hpp`)

A shallow embedding of the compile-time PLL solver (`default_clocks::calc_impl`,
`default_clocks::calc`), of the descriptor check of `default_clocks`, and of the
register sequence issued by `default_clocks::configure`.

Conventions of the embedding:

* `frequency_t = uint32_t` values are natural numbers below `2 ^ 32`; the one
  operation of the solver that can leave that range, the product
  `xtal::value / d * m`, is reduced modulo `2 ^ 32`.
* A template instantiation that trips a `static_assert` has no result: it is `none`.
* `configure` is embedded as the list of volatile register operations it issues, in
  program order. A busy-wait loop `while (!RCC.CR.X);` is the single operation
  `Op.wait X true` (spin until the bit reads set), `while (RCC.CR.X);` is
  `Op.wait X false`.
* `FLASH.LATENCY` denotes the `LATENCY` field of `FLASH_t::ACR_t`.
* `solve_exact` is not taken from the source: it is the search of the specification in
  exact arithmetic, against which `calc_impl` is compared.
-/

namespace STM32F334

/-! ## Frequencies and descriptors -/

/-- Modulus of `uint32_t`, the representation of `frequency_t`. -/
def U32 : Nat := 4294967296

/-- Modulus of `unsigned long long`, the type the `_MHz` literal computes in. -/
def U64 : Nat := 18446744073709551616

/-- The literal suffix `_MHz`: `f * 1000000` on `unsigned long long`. -/
def MHz (f : Nat) : Nat := f * 1000000 % U64

/-- The enumeration `XTAL_traits`. -/
inductive XTAL_traits
  | XTAL
  | DIRECT
  deriving DecidableEq, Repr

/-- The clock source descriptors: `struct HSI : XTAL<8> {}` and the specializations
`XTAL<freq, t>` of the class template `XTAL`. -/
inductive Source
  | HSI
  | XTAL (freq : Nat) (t : XTAL_traits)
  deriving DecidableEq, Repr

/-- The static member `value`; `HSI` inherits it from its base `XTAL<8>`. -/
def Source.value : Source → Nat
  | .HSI => 8
  | .XTAL freq _ => freq

/-- The static member `type`; `HSI` inherits the default `XTAL_traits::XTAL`. -/
def Source.type : Source → XTAL_traits
  | .HSI => .XTAL
  | .XTAL _ t => t

/-- A type passed as the template argument `xtal` of `default_clocks`: a clock source
descriptor, or any other type (told apart by a tag). -/
inductive TypeArg
  | source (s : Source)
  | other (tag : Nat)
  deriving DecidableEq, Repr

/-- The test `std::is_same_v<xtal, HSI>`. -/
def is_same_HSI : TypeArg → Bool
  | .source .HSI => true
  | _ => false

/-- The trait `is_XTAL<T>::value`: the primary template is `false_type`; the only
specialization, `is_XTAL<XTAL<freq>>`, names `XTAL<freq, XTAL_traits::XTAL>` through
the default argument of `XTAL`, and matches that exact type only. -/
def is_XTAL : TypeArg → Bool
  | .source (.XTAL _ .XTAL) => true
  | _ => false

/-- The condition of the `static_assert` at the head of `default_clocks`. -/
def default_clocks_assert (xtal : TypeArg) : Bool :=
  is_same_HSI xtal || is_XTAL xtal

/-- The constant `default_clocks<xtal, target>::SYSCLK`. -/
def SYSCLK (_xtal : Source) (target : Nat) : Nat := target

/-- The default template argument `target = xtal::value`. -/
def default_target (xtal : Source) : Nat := xtal.value

/-! ## The PLL solver -/

/-- The aggregate `struct pll { uint32_t div; uint32_t mul; }`. -/
structure pll where
  div : Nat
  mul : Nat
  deriving DecidableEq, Repr

/-- The condition `xtal::value / d * m == target` on `uint32_t`: truncating division,
then multiplication modulo `2 ^ 32`. -/
def matches32 (value target d m : Nat) : Prop :=
  value / d * m % U32 = target

instance (value target d m : Nat) : Decidable (matches32 value target d m) := by
  unfold matches32; infer_instance

/-- The inner loop `for (uint32_t m = ..; m <= 16; m++) if (..) return {d, m};`,
entered at `m` with `fuel` iterations allowed; `none` when the loop runs out. -/
def calc_impl_mul (value target d : Nat) : Nat → Nat → Option pll
  | 0, _ => none
  | fuel + 1, m =>
    if m ≤ 16 then
      if matches32 value target d m then some ⟨d, m⟩
      else calc_impl_mul value target d fuel (m + 1)
    else none

/-- The outer loop `for (uint32_t d = ..; d <= 16; d++)`, entered at `d` with `fuel`
iterations allowed, followed by `return {0,0};`. -/
def calc_impl_div (value target : Nat) : Nat → Nat → pll
  | 0, _ => ⟨0, 0⟩
  | fuel + 1, d =>
    if d ≤ 16 then
      match calc_impl_mul value target d 15 2 with
      | some p => p
      | none => calc_impl_div value target fuel (d + 1)
    else ⟨0, 0⟩

/-- The function `default_clocks<xtal, target>::calc_impl` with `value = xtal::value`:
`d` runs over 1..16 (16 iterations), `m` over 2..16 (15 iterations). -/
def calc_impl (value target : Nat) : pll :=
  calc_impl_div value target 16 1

/-- The function `default_clocks<xtal, target>::calc` (renamed, `calc` being a Lean
keyword): the result of `calc_impl`, or no instantiation when
`static_assert(ret.div != 0 && ret.mul != 0)` fails. -/
def calc_pll (value target : Nat) : Option pll :=
  let ret := calc_impl value target
  if ret.div != 0 && ret.mul != 0 then some ret else none

/-- The pair `(d, m)` lies in the search ranges of `calc_impl` and satisfies its
condition. -/
def Solves (value target d m : Nat) : Prop :=
  1 ≤ d ∧ d ≤ 16 ∧ 2 ≤ m ∧ m ≤ 16 ∧ matches32 value target d m

instance (value target d m : Nat) : Decidable (Solves value target d m) := by
  unfold Solves; infer_instance

/-! ## Registers and the configure sequence -/

/-- The register fields `configure` can touch: `LATENCY` of `FLASH_t::ACR_t`, the named
bits of `RCC_t::CR_t`, `SW`, `PLLSRC`, `PLLXTPRE`, `PLLMUL` of `RCC_t::CFGR_t` and
`PREDIV` of `RCC_t::CFGR2_t`. -/
inductive Field
  | LATENCY
  | HSION
  | HSIRDY
  | HSEON
  | HSERDY
  | HSEBYP
  | PLLON
  | PLLRDY
  | SW
  | PLLSRC
  | PLLXTPRE
  | PLLMUL
  | PREDIV
  deriving DecidableEq, Repr

/-- The declared bit width of each field. -/
def Field.width : Field → Nat
  | .LATENCY => 3
  | .HSION => 1
  | .HSIRDY => 1
  | .HSEON => 1
  | .HSERDY => 1
  | .HSEBYP => 1
  | .PLLON => 1
  | .PLLRDY => 1
  | .SW => 2
  | .PLLSRC => 1
  | .PLLXTPRE => 1
  | .PLLMUL => 4
  | .PREDIV => 4

/-- The enumeration `RCC_t::CFGR_SW`. -/
inductive CFGR_SW
  | HSI
  | HSE
  | PLL
  deriving DecidableEq, Repr

/-- The underlying `uint32_t` value of a `CFGR_SW` enumerator. -/
def CFGR_SW.toNat : CFGR_SW → Nat
  | .HSI => 0
  | .HSE => 1
  | .PLL => 2

/-- One volatile register operation: a store of `v` into field `f`, or a busy-wait that
polls field `f` until it reads set (`true`) or clear (`false`). -/
inductive Op
  | write (f : Field) (v : Nat)
  | wait (f : Field) (set : Bool)
  deriving DecidableEq, Repr

/-- Assignment `field = v` of a `uint32_t` value to a bit-field: the stored value is `v`
truncated to the width of the field. -/
def assign (f : Field) (v : Nat) : Op :=
  .write f (v % 2 ^ f.width)

/-- Subtraction on `uint32_t`, as in `calc().mul - 2`. -/
def sub32 (a b : Nat) : Nat :=
  (a + U32 - b % U32) % U32

/-- The function `default_clocks<xtal, target>::configure`, as the sequence of register
operations it issues; `none` when the instantiation calls `calc` and its
`static_assert` fails. Branches of `if constexpr` not taken are not instantiated. -/
def configure (xtal : Source) (target : Nat) : Option (List Op) :=
  let latency : List Op :=
    if target < MHz 24 then [assign .LATENCY 0]
    else if target < MHz 48 then [assign .LATENCY 1]
    else [assign .LATENCY 2]
  if is_same_HSI (.source xtal) && target != xtal.value then
    some (latency ++
      [assign .HSION 1, .wait .HSIRDY true, assign .SW CFGR_SW.HSI.toNat,
       assign .HSEON 0, assign .PLLON 0])
  else
    let bringup : List Op :=
      if is_same_HSI (.source xtal) then
        [assign .HSION 1, .wait .HSIRDY true, assign .SW CFGR_SW.HSI.toNat,
         assign .HSEON 0]
      else
        [assign .HSEON 1] ++
        (if xtal.type = XTAL_traits.DIRECT then [assign .HSEBYP 1] else []) ++
        [.wait .HSERDY true, assign .HSION 0, assign .SW CFGR_SW.HSE.toNat]
    if target != xtal.value then
      match calc_pll xtal.value target with
      | none => none
      | some ret =>
        some (latency ++ bringup ++
          [assign .PLLON 0, .wait .PLLRDY false,
           assign .PLLMUL (sub32 ret.mul 2), assign .PREDIV (sub32 ret.div 1),
           assign .PLLON 1, .wait .PLLRDY true])
    else
      some (latency ++ bringup ++ [assign .PLLON 0])

/-- The class `default_clocks<xtal, target>` as a whole: its `configure`, provided the
`static_assert` on `xtal` holds. -/
def default_clocks (xtal : TypeArg) (target : Nat) : Option (List Op) :=
  if default_clocks_assert xtal then
    match xtal with
    | .source s => configure s target
    | .other _ => none
  else none

/-! ## Observations on a sequence -/

/-- The values written to field `f`, in order. -/
def writesTo (f : Field) : List Op → List Nat
  | [] => []
  | .write g v :: ops => if g = f then v :: writesTo f ops else writesTo f ops
  | .wait _ _ :: ops => writesTo f ops

/-- Some occurrence of `a` in the sequence comes strictly before some occurrence of `b`. -/
def precedes (a b : Op) : List Op → Bool
  | [] => false
  | x :: xs => (x == a && xs.contains b) || precedes a b xs

/-- The field an operation addresses, by a store or by a polling read. -/
def Op.field : Op → Field
  | .write f _ => f
  | .wait f _ => f

/-- The value field `f` holds after the sequence, as far as the sequence determines it:
the last value stored into it, if any. -/
def lastWrite (f : Field) (ops : List Op) : Option Nat :=
  (writesTo f ops).getLast?

/-- The ordering discipline of a PLL reconfiguration on a sequence. First part: every
store into `PLLMUL` or `PREDIV` (at position `i`) has before it a store `PLLON = 0`
(at `j`) and, after that, a wait for `PLLRDY` to read clear (at `k`), with no store
`PLLON = 1` between `j` and `i`. Second part: every store `PLLON = 1` (at `i`) comes
after every store into `PLLMUL` or `PREDIV` and after a store `PLLON = 0` (at `j`)
with no other store `PLLON = 1` between them. -/
def PllOrdered (ops : List Op) : Prop :=
  (∀ (i v : Nat), (ops[i]? = some (Op.write .PLLMUL v) ∨ ops[i]? = some (Op.write .PREDIV v)) →
    ∃ j k : Nat, j < k ∧ k < i ∧ ops[j]? = some (Op.write .PLLON 0) ∧
      ops[k]? = some (Op.wait .PLLRDY false) ∧
      ∀ l : Nat, j < l → l < i → ops[l]? ≠ some (Op.write .PLLON 1)) ∧
  (∀ i : Nat, ops[i]? = some (Op.write .PLLON 1) →
    (∀ (l v : Nat), (ops[l]? = some (Op.write .PLLMUL v) ∨ ops[l]? = some (Op.write .PREDIV v)) →
      l < i) ∧
    ∃ j : Nat, j < i ∧ ops[j]? = some (Op.write .PLLON 0) ∧
      ∀ l : Nat, j < l → l < i → ops[l]? ≠ some (Op.write .PLLON 1))

/-! ## The solver over unbounded natural numbers -/

/-- The solver as the specification words it, in exact integer arithmetic: exhaustive
search over the dividers 1..16 (outer, ascending) and the multipliers 2..16 (inner,
ascending), returning the first pair with `S / d * m = T` (truncating division, then an
unbounded product), or the sentinel `(0, 0)` when there is none. -/
def solve_exact (S T : Nat) : pll :=
  ((List.range' 1 16).findSome? fun d =>
    (List.range' 2 15).findSome? fun m =>
      if S / d * m = T then some (⟨d, m⟩ : pll) else none).getD ⟨0, 0⟩

/-! ## Lemmas on the solver loops -/

theorem calc_impl_mul_some (v t d : Nat) :
    ∀ fuel m p, calc_impl_mul v t d fuel m = some p →
      p.div = d ∧ m ≤ p.mul ∧ p.mul ≤ 16 ∧ matches32 v t d p.mul ∧
        ∀ k, m ≤ k → k < p.mul → ¬ matches32 v t d k := by
  intro fuel
  induction fuel with
  | zero => intro m p h; simp [calc_impl_mul] at h
  | succ n ih =>
    intro m p h
    unfold calc_impl_mul at h
    by_cases hm : m ≤ 16
    · by_cases hs : matches32 v t d m
      · simp only [hm, hs, if_true, Option.some.injEq] at h
        subst h
        exact ⟨rfl, le_refl _, hm, hs, fun k h1 h2 => absurd h1 (by simpa using h2)⟩
      · simp only [hm, hs, if_true, if_false] at h
        obtain ⟨h1, h2, h3, h4, h5⟩ := ih (m + 1) p h
        refine ⟨h1, by omega, h3, h4, ?_⟩
        intro k hk1 hk2
        by_cases hkm : k = m
        · subst hkm; exact hs
        · exact h5 k (by omega) hk2
    · simp [hm] at h

theorem calc_impl_mul_none (v t d : Nat) :
    ∀ fuel m, calc_impl_mul v t d fuel m = none → 17 ≤ m + fuel →
      ∀ k, m ≤ k → k ≤ 16 → ¬ matches32 v t d k := by
  intro fuel
  induction fuel with
  | zero => intro m _ hf k hk1 hk2; omega
  | succ n ih =>
    intro m h hf k hk1 hk2
    unfold calc_impl_mul at h
    by_cases hm : m ≤ 16
    · by_cases hs : matches32 v t d m
      · simp [hm, hs] at h
      · simp only [hm, hs, if_true, if_false] at h
        by_cases hkm : k = m
        · subst hkm; exact hs
        · exact ih (m + 1) h (by omega) k (by omega) hk2
    · omega

/-- What the outer loop returns when entered at `d` with enough iterations left: either
the sentinel, and then no pair from `d` on matches, or the first matching pair in
the order of the search. -/
theorem calc_impl_div_spec (v t : Nat) :
    ∀ fuel d, 17 ≤ d + fuel →
      (calc_impl_div v t fuel d = ⟨0, 0⟩ ∧
        ∀ e, d ≤ e → e ≤ 16 → ∀ k, 2 ≤ k → k ≤ 16 → ¬ matches32 v t e k) ∨
      (d ≤ (calc_impl_div v t fuel d).div ∧ (calc_impl_div v t fuel d).div ≤ 16 ∧
        2 ≤ (calc_impl_div v t fuel d).mul ∧ (calc_impl_div v t fuel d).mul ≤ 16 ∧
        matches32 v t (calc_impl_div v t fuel d).div (calc_impl_div v t fuel d).mul ∧
        (∀ e, d ≤ e → e < (calc_impl_div v t fuel d).div →
          ∀ k, 2 ≤ k → k ≤ 16 → ¬ matches32 v t e k) ∧
        ∀ k, 2 ≤ k → k < (calc_impl_div v t fuel d).mul →
          ¬ matches32 v t (calc_impl_div v t fuel d).div k) := by
  intro fuel
  induction fuel with
  | zero =>
    intro d hf
    left
    exact ⟨rfl, fun e h1 h2 => by omega⟩
  | succ n ih =>
    intro d hf
    unfold calc_impl_div
    by_cases hd : d ≤ 16
    · simp only [hd, if_true]
      cases hin : calc_impl_mul v t d 15 2 with
      | some p =>
        obtain ⟨h1, h2, h3, h4, h5⟩ := calc_impl_mul_some v t d 15 2 p hin
        right
        simp only
        rw [h1]
        exact ⟨le_refl _, hd, h2, h3, h4, fun e he1 he2 => by omega, h5⟩
      | none =>
        have hnone := calc_impl_mul_none v t d 15 2 hin (by omega)
        simp only
        rcases ih (d + 1) (by omega) with ⟨h0, hall⟩ | ⟨h1, h2, h3, h4, h5, h6, h7⟩
        · left
          refine ⟨h0, ?_⟩
          intro e he1 he2 k hk1 hk2
          by_cases hed : e = d
          · subst hed; exact hnone k hk1 hk2
          · exact hall e (by omega) he2 k hk1 hk2
        · right
          refine ⟨by omega, h2, h3, h4, h5, ?_, h7⟩
          intro e he1 he2 k hk1 hk2
          by_cases hed : e = d
          · subst hed; exact hnone k hk1 hk2
          · exact h6 e (by omega) he2 k hk1 hk2
    · left
      simp only [hd, if_false, true_and]
      intro e he1 he2
      omega

/-- The iteration count of the inner loop is not a limit: with the loop guard
`m <= 16` in force, any larger allowance gives the same result. -/
theorem calc_impl_mul_fuel (v t d : Nat) :
    ∀ fuel m, 17 ≤ m + fuel →
      calc_impl_mul v t d (fuel + 1) m = calc_impl_mul v t d fuel m := by
  intro fuel
  induction fuel with
  | zero =>
    intro m hf
    have : ¬ m ≤ 16 := by omega
    simp [calc_impl_mul, this]
  | succ n ih =>
    intro m hf
    rw [calc_impl_mul]
    conv_rhs => rw [calc_impl_mul]
    by_cases hm : m ≤ 16
    · by_cases hs : matches32 v t d m
      · simp [hm, hs]
      · simp only [hm, hs, if_true, if_false]
        exact ih (m + 1) (by omega)
    · simp [hm]

/-- The iteration count of the outer loop is not a limit either: with the loop guard
`d <= 16` in force, any larger allowance gives the same result. -/
theorem calc_impl_div_fuel (v t : Nat) :
    ∀ fuel d, 17 ≤ d + fuel → calc_impl_div v t (fuel + 1) d = calc_impl_div v t fuel d := by
  intro fuel
  induction fuel with
  | zero =>
    intro d hf
    have : ¬ d ≤ 16 := by omega
    simp [calc_impl_div, this]
  | succ n ih =>
    intro d hf
    rw [calc_impl_div]
    conv_rhs => rw [calc_impl_div]
    by_cases hd : d ≤ 16
    · simp only [hd, if_true]
      cases calc_impl_mul v t d 15 2 with
      | some p => rfl
      | none => exact ih (d + 1) (by omega)
    · simp [hd]

/-- The result of `calc_impl`: the sentinel `{0,0}` when no pair in range matches,
otherwise the first matching pair in the order of the search. -/
theorem calc_impl_spec (v t : Nat) :
    (calc_impl v t = ⟨0, 0⟩ ∧ ∀ d m, ¬ Solves v t d m) ∨
    (Solves v t (calc_impl v t).div (calc_impl v t).mul ∧
      ∀ d m, Solves v t d m →
        (calc_impl v t).div < d ∨ ((calc_impl v t).div = d ∧ (calc_impl v t).mul ≤ m)) := by
  unfold calc_impl
  rcases calc_impl_div_spec v t 16 1 (by omega) with ⟨h0, hall⟩ | ⟨h1, h2, h3, h4, h5, h6, h7⟩
  · left
    refine ⟨h0, ?_⟩
    rintro d m ⟨hd1, hd2, hm1, hm2, hs⟩
    exact hall d hd1 hd2 m hm1 hm2 hs
  · right
    refine ⟨⟨h1, h2, h3, h4, h5⟩, ?_⟩
    rintro d m ⟨hd1, hd2, hm1, hm2, hs⟩
    by_cases hlt : (calc_impl_div v t 16 1).div < d
    · exact Or.inl hlt
    · right
      by_cases heq : (calc_impl_div v t 16 1).div = d
      · refine ⟨heq, ?_⟩
        by_contra hcon
        exact h7 m hm1 (by omega) (heq ▸ hs)
      · exact absurd hs (h6 d hd1 (by omega) m hm1 hm2)

/-! ## Lemmas on the configure sequence -/

/-- The sequence of `configure` is one `LATENCY` store, chosen from the target by the
two thresholds, followed by operations on `RCC` only. -/
theorem configure_shape (xtal : Source) (T : Nat) (ops : List Op)
    (h : configure xtal T = some ops) :
    ∃ rest, ops = Op.write .LATENCY
        (if T < 24000000 then 0 else if T < 48000000 then 1 else 2) :: rest ∧
      ∀ op ∈ rest, ∀ v, op ≠ Op.write .LATENCY v := by
  unfold configure at h
  simp only [MHz, U64, assign, Field.width] at h
  split at h
  · simp only [Option.some.injEq] at h
    subst h
    split_ifs <;> simp
  · split at h
    · split at h
      · simp at h
      · simp only [Option.some.injEq] at h
        subst h
        split_ifs <;> simp
    · simp only [Option.some.injEq] at h
      subst h
      split_ifs <;> simp

/-- A result of `calc_impl` other than the sentinel lies in the search ranges. -/
theorem calc_impl_sound_range (v t : Nat) (h : calc_impl v t ≠ ⟨0, 0⟩) :
    1 ≤ (calc_impl v t).div ∧ (calc_impl v t).div ≤ 16 ∧
    2 ≤ (calc_impl v t).mul ∧ (calc_impl v t).mul ≤ 16 ∧
    matches32 v t (calc_impl v t).div (calc_impl v t).mul := by
  rcases calc_impl_spec v t with ⟨h0, _⟩ | ⟨hs, _⟩
  · exact absurd h0 h
  · exact hs

/-- A sequence without a store into `LATENCY` contributes no `LATENCY` value. -/
theorem writesTo_LATENCY_nil (l : List Op)
    (hl : ∀ op ∈ l, ∀ v, op ≠ Op.write .LATENCY v) : writesTo .LATENCY l = [] := by
  induction l with
  | nil => rfl
  | cons op l ih =>
    have hl2 := ih (fun o ho => hl o (List.mem_cons_of_mem _ ho))
    cases op with
    | write g v =>
      have hg : g ≠ Field.LATENCY := by
        intro hg
        exact hl (Op.write g v) (List.mem_cons_self _ _) v (by rw [hg])
      simp [writesTo, hg, hl2]
    | wait g b => simp [writesTo, hl2]

/-- The sequence of `configure` for the source `HSI`, for every target: it is the same
whether or not the target equals `HSI::value`, and ends with `PLLON = 0`. -/
theorem configure_HSI (T : Nat) :
    configure .HSI T = some
      [.write .LATENCY (if T < 24000000 then 0 else if T < 48000000 then 1 else 2),
       .write .HSION 1, .wait .HSIRDY true, .write .SW 0, .write .HSEON 0,
       .write .PLLON 0] := by
  unfold configure
  simp only [MHz, U64, assign, Field.width, is_same_HSI, Source.value, CFGR_SW.toNat]
  by_cases h8 : T = 8
  · subst h8; decide
  · have hb : (T != 8) = true := by simpa using h8
    simp only [hb, Bool.and_self, if_true]
    split_ifs <;> simp

/-- The sequence of `configure` on the PLL path of an external source: target different
from the source frequency, solver result `(d, m)`. -/
theorem configure_XTAL_scaled (freq T d m : Nat) (t : XTAL_traits) (hT : T ≠ freq)
    (hs : calc_pll freq T = some ⟨d, m⟩) :
    configure (.XTAL freq t) T = some
      ([.write .LATENCY (if T < 24000000 then 0 else if T < 48000000 then 1 else 2),
        .write .HSEON 1] ++
       (if t = .DIRECT then [.write .HSEBYP 1] else []) ++
       [.wait .HSERDY true, .write .HSION 0, .write .SW 1, .write .PLLON 0,
        .wait .PLLRDY false, .write .PLLMUL (m - 2), .write .PREDIV (d - 1),
        .write .PLLON 1, .wait .PLLRDY true]) := by
  have himpl : calc_impl freq T = ⟨d, m⟩ := by
    unfold calc_pll at hs
    simp only at hs
    split at hs
    · exact Option.some.inj hs
    · exact absurd hs (by simp)
  have hnz : calc_impl freq T ≠ ⟨0, 0⟩ := by
    intro h0
    unfold calc_pll at hs
    simp [h0] at hs
  obtain ⟨hd1, hd2, hm1, hm2, _⟩ := calc_impl_sound_range freq T hnz
  rw [himpl] at hd1 hd2 hm1 hm2
  simp only at hd1 hd2 hm1 hm2
  have e1 : sub32 m 2 % 16 = m - 2 := by unfold sub32 U32; omega
  have e2 : sub32 d 1 % 16 = d - 1 := by unfold sub32 U32; omega
  unfold configure
  simp only [is_same_HSI, Source.value, Source.type, hs, bne_iff_ne, ne_eq, hT,
    not_false_eq_true, Bool.false_and, if_true, if_false, Bool.false_eq_true,
    MHz, U64, assign, Field.width, CFGR_SW.toNat]
  cases t <;> split_ifs <;> simp [e1, e2]

/-- The sequence of `configure` for an external source with the target equal to the
source frequency: no solver call, the sequence ends with `PLLON = 0`. -/
theorem configure_XTAL_pass (freq : Nat) (t : XTAL_traits) :
    configure (.XTAL freq t) freq = some
      ([.write .LATENCY (if freq < 24000000 then 0 else if freq < 48000000 then 1 else 2),
        .write .HSEON 1] ++
       (if t = .DIRECT then [.write .HSEBYP 1] else []) ++
       [.wait .HSERDY true, .write .HSION 0, .write .SW 1, .write .PLLON 0]) := by
  unfold configure
  simp only [is_same_HSI, Source.value, Source.type, bne_self_eq_false, Bool.false_and,
    if_false, Bool.false_eq_true, MHz, U64, assign, Field.width, CFGR_SW.toNat]
  cases t <;> split_ifs <;> simp

/-- An external source with a target that differs from its frequency and that the
solver cannot reach has no `configure`. -/
theorem configure_XTAL_unsolved (freq T : Nat) (t : XTAL_traits) (hT : T ≠ freq)
    (hs : calc_pll freq T = none) : configure (.XTAL freq t) T = none := by
  unfold configure
  simp only [is_same_HSI, Source.value, hs, bne_iff_ne, ne_eq, hT, not_false_eq_true,
    Bool.false_and, if_true, if_false, Bool.false_eq_true]

/-- The three forms a sequence of `configure` can have. -/
theorem configure_cases (xtal : Source) (T : Nat) (ops : List Op)
    (h : configure xtal T = some ops) :
    (xtal = .HSI ∧ ops =
      [.write .LATENCY (if T < 24000000 then 0 else if T < 48000000 then 1 else 2),
       .write .HSION 1, .wait .HSIRDY true, .write .SW 0, .write .HSEON 0,
       .write .PLLON 0]) ∨
    (∃ t, xtal = .XTAL T t ∧ ops =
      [.write .LATENCY (if T < 24000000 then 0 else if T < 48000000 then 1 else 2),
        .write .HSEON 1] ++
       (if t = .DIRECT then [.write .HSEBYP 1] else []) ++
       [.wait .HSERDY true, .write .HSION 0, .write .SW 1, .write .PLLON 0]) ∨
    (∃ freq t d m, xtal = .XTAL freq t ∧ T ≠ freq ∧ calc_pll freq T = some ⟨d, m⟩ ∧
      ops =
      [.write .LATENCY (if T < 24000000 then 0 else if T < 48000000 then 1 else 2),
        .write .HSEON 1] ++
       (if t = .DIRECT then [.write .HSEBYP 1] else []) ++
       [.wait .HSERDY true, .write .HSION 0, .write .SW 1, .write .PLLON 0,
        .wait .PLLRDY false, .write .PLLMUL (m - 2), .write .PREDIV (d - 1),
        .write .PLLON 1, .wait .PLLRDY true]) := by
  cases xtal with
  | HSI =>
    rw [configure_HSI] at h
    exact Or.inl ⟨rfl, (Option.some.inj h).symm⟩
  | XTAL freq t =>
    by_cases hT : T = freq
    · subst hT
      rw [configure_XTAL_pass] at h
      exact Or.inr (Or.inl ⟨t, rfl, (Option.some.inj h).symm⟩)
    · cases hc : calc_pll freq T with
      | none =>
        rw [configure_XTAL_unsolved freq T t hT hc] at h
        exact absurd h (by simp)
      | some p =>
        obtain ⟨d, m⟩ := p
        rw [configure_XTAL_scaled freq T d m t hT hc] at h
        exact Or.inr (Or.inr ⟨freq, t, d, m, rfl, hT, hc, (Option.some.inj h).symm⟩)

/-- An element of `pre ++ tl` that does not occur in `pre` sits in `tl`, at the
position shifted by the length of `pre`. -/
theorem getElem?_append_tail (pre tl : List Op) (i : Nat) (x : Op)
    (h : (pre ++ tl)[i]? = some x) (hx : x ∉ pre) :
    ∃ k, i = pre.length + k ∧ tl[k]? = some x := by
  by_cases hi : i < pre.length
  · rw [List.getElem?_append_left hi] at h
    exact absurd (List.getElem?_mem h) hx
  · have hle : pre.length ≤ i := Nat.le_of_not_lt hi
    rw [List.getElem?_append_right hle] at h
    exact ⟨i - pre.length, by omega, h⟩

/-- Positions past the length of `pre` in `pre ++ tl` read `tl`. -/
theorem getElem?_append_add (pre tl : List Op) (k : Nat) :
    (pre ++ tl)[pre.length + k]? = tl[k]? := by
  rw [List.getElem?_append_right (Nat.le_add_right _ _)]
  congr 1
  omega

/-- A sequence with no store into `PLLMUL` or `PREDIV` and no store `PLLON = 1`
satisfies the ordering discipline, having nothing to order. -/
theorem PllOrdered_of_no_pll (ops : List Op)
    (h : ∀ op ∈ ops, op.field ≠ .PLLMUL ∧ op.field ≠ .PREDIV ∧ op ≠ Op.write .PLLON 1) :
    PllOrdered ops := by
  unfold PllOrdered
  constructor
  · intro i v hi
    rcases hi with hi | hi
    · exact absurd rfl (h _ (List.getElem?_mem hi)).1
    · exact absurd rfl (h _ (List.getElem?_mem hi)).2.1
  · intro i hi
    exact absurd rfl (h _ (List.getElem?_mem hi)).2.2

/-- A sequence that touches no PLL field and then disables the PLL, waits for `PLLRDY`
to clear, stores the two fields, enables the PLL and waits for `PLLRDY` satisfies the
ordering discipline. -/
theorem PllOrdered_of_tail (pre : List Op) (a b : Nat)
    (hpre : ∀ op ∈ pre, op.field ≠ .PLLMUL ∧ op.field ≠ .PREDIV ∧ op.field ≠ .PLLON) :
    PllOrdered (pre ++ [Op.write .PLLON 0, Op.wait .PLLRDY false, Op.write .PLLMUL a,
      Op.write .PREDIV b, Op.write .PLLON 1, Op.wait .PLLRDY true]) := by
  have hmul : ∀ v, Op.write .PLLMUL v ∉ pre := fun v hv => (hpre _ hv).1 rfl
  have hdiv : ∀ v, Op.write .PREDIV v ∉ pre := fun v hv => (hpre _ hv).2.1 rfl
  have hon : ∀ v, Op.write .PLLON v ∉ pre := fun v hv => (hpre _ hv).2.2 rfl
  have h0 := getElem?_append_add pre [Op.write .PLLON 0, Op.wait .PLLRDY false,
    Op.write .PLLMUL a, Op.write .PREDIV b, Op.write .PLLON 1, Op.wait .PLLRDY true] 0
  have h1 := getElem?_append_add pre [Op.write .PLLON 0, Op.wait .PLLRDY false,
    Op.write .PLLMUL a, Op.write .PREDIV b, Op.write .PLLON 1, Op.wait .PLLRDY true] 1
  -- no store `PLLON = 1` strictly between the positions `pre.length` and `pre.length + 4`
  have hbetween : ∀ l, pre.length < l → l < pre.length + 4 →
      (pre ++ [Op.write .PLLON 0, Op.wait .PLLRDY false, Op.write .PLLMUL a,
        Op.write .PREDIV b, Op.write .PLLON 1, Op.wait .PLLRDY true])[l]? ≠
        some (Op.write .PLLON 1) := by
    intro l hl1 hl2 hl
    obtain ⟨k, hk, hkt⟩ := getElem?_append_tail _ _ l _ hl (hon 1)
    have hk4 : k = 1 ∨ k = 2 ∨ k = 3 := by omega
    rcases hk4 with rfl | rfl | rfl <;> simp at hkt
  -- a field store sits at position `pre.length + 2` or `pre.length + 3`
  have hfield : ∀ i v,
      ((pre ++ [Op.write .PLLON 0, Op.wait .PLLRDY false, Op.write .PLLMUL a,
        Op.write .PREDIV b, Op.write .PLLON 1, Op.wait .PLLRDY true])[i]? =
          some (Op.write .PLLMUL v) ∨
       (pre ++ [Op.write .PLLON 0, Op.wait .PLLRDY false, Op.write .PLLMUL a,
        Op.write .PREDIV b, Op.write .PLLON 1, Op.wait .PLLRDY true])[i]? =
          some (Op.write .PREDIV v)) →
      i = pre.length + 2 ∨ i = pre.length + 3 := by
    intro i v hi
    rcases hi with hi | hi
    · obtain ⟨k, hk, hkt⟩ := getElem?_append_tail _ _ i _ hi (hmul v)
      rcases k with _ | _ | _ | _ | _ | _ | k <;> simp at hkt
      omega
    · obtain ⟨k, hk, hkt⟩ := getElem?_append_tail _ _ i _ hi (hdiv v)
      rcases k with _ | _ | _ | _ | _ | _ | k <;> simp at hkt
      omega
  unfold PllOrdered
  constructor
  · intro i v hi
    have hpos := hfield i v hi
    refine ⟨pre.length, pre.length + 1, by omega, by omega, by simpa using h0,
      by simpa using h1, ?_⟩
    intro l hl1 hl2
    exact hbetween l hl1 (by omega)
  · intro i hi
    obtain ⟨k, hk, hkt⟩ := getElem?_append_tail _ _ i _ hi (hon 1)
    have hk4 : k = 4 := by
      rcases k with _ | _ | _ | _ | _ | _ | k <;> simp at hkt
      rfl
    subst hk4
    refine ⟨?_, pre.length, by omega, by simpa using h0, ?_⟩
    · intro l v hl
      have := hfield l v hl
      omega
    · intro l hl1 hl2
      exact hbetween l hl1 (by omega)

/-- The inner loop of `calc_impl` is a first-match search over the multipliers from
`m` up to 16, when its condition agrees with the exact one on those multipliers. -/
theorem calc_impl_mul_eq_findSome (v t d : Nat)
    (hag : ∀ k, k ≤ 16 → (matches32 v t d k ↔ v / d * k = t)) :
    ∀ fuel m, m + fuel = 17 →
      calc_impl_mul v t d fuel m =
        (List.range' m fuel).findSome? fun k =>
          if v / d * k = t then some (⟨d, k⟩ : pll) else none := by
  intro fuel
  induction fuel with
  | zero => intro m _; rfl
  | succ n ih =>
    intro m hm
    have hm16 : m ≤ 16 := by omega
    rw [calc_impl_mul, List.range'_succ, List.findSome?_cons]
    by_cases hs : matches32 v t d m
    · have he : v / d * m = t := (hag m hm16).1 hs
      simp [hm16, hs, he]
    · have he : ¬ v / d * m = t := fun h => hs ((hag m hm16).2 h)
      simp only [hm16, hs, he, if_true, if_false]
      exact ih (m + 1) (by omega)

/-- The outer loop of `calc_impl` is a first-match search over the dividers from `d` up
to 16, under the same agreement. -/
theorem calc_impl_div_eq_findSome (v t : Nat)
    (hag : ∀ d k, k ≤ 16 → (matches32 v t d k ↔ v / d * k = t)) :
    ∀ fuel d, d + fuel = 17 →
      calc_impl_div v t fuel d =
        ((List.range' d fuel).findSome? fun e =>
          (List.range' 2 15).findSome? fun k =>
            if v / e * k = t then some (⟨e, k⟩ : pll) else none).getD ⟨0, 0⟩ := by
  intro fuel
  induction fuel with
  | zero => intro d _; rfl
  | succ n ih =>
    intro d hd
    have hd16 : d ≤ 16 := by omega
    rw [calc_impl_div, List.range'_succ d n, List.findSome?_cons,
      calc_impl_mul_eq_findSome v t d (hag d) 15 2 rfl]
    simp only [hd16, if_true]
    cases (List.range' 2 15).findSome? fun k =>
        if v / d * k = t then some (⟨d, k⟩ : pll) else none with
    | some p => rfl
    | none => exact ih (d + 1) (by omega)

/-- For a source frequency of at most 268435455 no product of the search wraps, so the
condition of `calc_impl` is the exact one. -/
theorem matches32_iff_exact (S T d k : Nat) (hS : S ≤ 268435455) (hk : k ≤ 16) :
    matches32 S T d k ↔ S / d * k = T := by
  have hle : S / d * k ≤ S * 16 := Nat.mul_le_mul (Nat.div_le_self _ _) hk
  have hlt : S / d * k < U32 := by unfold U32; omega
  unfold matches32
  rw [Nat.mod_eq_of_lt hlt]

/-- The body of `configure` on an external descriptor of kind `DIRECT`, were it
instantiated: after the latency store it stores `HSEON = 1`, then `HSEBYP = 1`, then
waits for `HSERDY`; neither field is stored again. -/
theorem configure_DIRECT_body (freq T : Nat) (ops : List Op)
    (h : configure (.XTAL freq .DIRECT) T = some ops) :
    (∃ v rest, ops = Op.write .LATENCY v :: Op.write .HSEON 1 :: Op.write .HSEBYP 1 ::
        Op.wait .HSERDY true :: rest ∧
      writesTo .HSEON rest = [] ∧ writesTo .HSEBYP rest = []) ∧
    precedes (.write .HSEON 1) (.write .HSEBYP 1) ops = true ∧
    precedes (.write .HSEBYP 1) (.write .HSEON 1) ops = false := by
  unfold configure at h
  simp only [is_same_HSI, Source.value, Source.type, Bool.false_and, if_true, if_false,
    Bool.false_eq_true] at h
  split at h
  · split at h
    · exact absurd h (by simp)
    · simp only [Option.some.injEq] at h
      subst h
      split_ifs <;> refine ⟨⟨_, _, rfl, ?_, ?_⟩, ?_, ?_⟩ <;>
        simp [writesTo, assign, Field.width, precedes, CFGR_SW.toNat]
  · simp only [Option.some.injEq] at h
    subst h
    split_ifs <;> refine ⟨⟨_, _, rfl, ?_, ?_⟩, ?_, ?_⟩ <;>
      simp [writesTo, assign, Field.width, precedes, CFGR_SW.toNat]

/-! ## The solver: first match, soundness, failure -/

/-- C1. Solver first-match: whenever some divider `d` in 1..16 and multiplier `m` in
2..16 satisfy `S / d * m == T` as `calc_impl` evaluates it (truncating division, then
the product on `uint32_t`), `calc_impl` returns such a pair, and it is the least one in
the order of the search: no satisfying pair has a smaller divider, and none with the
same divider has a smaller multiplier. Holds for all `S` and `T`, in particular for all
32-bit ones. -/
theorem calc_impl_first_match (S T : Nat)
    (h : ∃ d m, 1 ≤ d ∧ d ≤ 16 ∧ 2 ≤ m ∧ m ≤ 16 ∧ S / d * m % U32 = T) :
    (1 ≤ (calc_impl S T).div ∧ (calc_impl S T).div ≤ 16 ∧
      2 ≤ (calc_impl S T).mul ∧ (calc_impl S T).mul ≤ 16 ∧
      S / (calc_impl S T).div * (calc_impl S T).mul % U32 = T) ∧
    ∀ d m, 1 ≤ d ∧ d ≤ 16 ∧ 2 ≤ m ∧ m ≤ 16 ∧ S / d * m % U32 = T →
      (calc_impl S T).div < d ∨ ((calc_impl S T).div = d ∧ (calc_impl S T).mul ≤ m) := by
  obtain ⟨d, m, hdm⟩ := h
  rcases calc_impl_spec S T with ⟨_, hno⟩ | ⟨hs, hmin⟩
  · exact absurd hdm (hno d m)
  · exact ⟨hs, hmin⟩

/-- C1 at `S = 32000000`, `T = 72000000`, where the result is `(4, 9)`; and the result
`(1, 9)` for `S = 8000000`, `T = 72000000`. -/
theorem calc_impl_first_match_witness :
    calc_impl 32000000 72000000 = ⟨4, 9⟩ ∧ calc_impl 8000000 72000000 = ⟨1, 9⟩ ∧
    ((1 ≤ (calc_impl 32000000 72000000).div ∧ (calc_impl 32000000 72000000).div ≤ 16 ∧
      2 ≤ (calc_impl 32000000 72000000).mul ∧ (calc_impl 32000000 72000000).mul ≤ 16 ∧
      32000000 / (calc_impl 32000000 72000000).div * (calc_impl 32000000 72000000).mul
        % U32 = 72000000) ∧
    ∀ d m, 1 ≤ d ∧ d ≤ 16 ∧ 2 ≤ m ∧ m ≤ 16 ∧ 32000000 / d * m % U32 = 72000000 →
      (calc_impl 32000000 72000000).div < d ∨
        ((calc_impl 32000000 72000000).div = d ∧ (calc_impl 32000000 72000000).mul ≤ m)) :=
  ⟨by decide, by decide,
    calc_impl_first_match 32000000 72000000 ⟨4, 9, by decide⟩⟩

/-- C2 as stated fails: for `S = 3 * 2^30` and `T = 2^31`, both 32-bit values,
`calc_impl` returns `(1, 2)`, not the sentinel, although `S / 1 * 2 = 6442450944`
differs from `T`; the pair matches only modulo `2 ^ 32`. -/
theorem calc_impl_exact_counterexample :
    3221225472 < U32 ∧ 2147483648 < U32 ∧
    calc_impl 3221225472 2147483648 = ⟨1, 2⟩ ∧
    calc_impl 3221225472 2147483648 ≠ ⟨0, 0⟩ ∧
    3221225472 / (calc_impl 3221225472 2147483648).div
      * (calc_impl 3221225472 2147483648).mul ≠ 2147483648 := by
  decide

/-- C2, amended. When `calc_impl` returns a pair other than the sentinel `(0, 0)`, the
divider is in 1..16, the multiplier in 2..16, and `S / d * m` equals `T` modulo
`2 ^ 32`; the equality is exact whenever the product is below `2 ^ 32`, in particular
whenever `S ≤ 268435455`. -/
theorem calc_impl_sound_mod (S T : Nat) (h : calc_impl S T ≠ ⟨0, 0⟩) :
    1 ≤ (calc_impl S T).div ∧ (calc_impl S T).div ≤ 16 ∧
    2 ≤ (calc_impl S T).mul ∧ (calc_impl S T).mul ≤ 16 ∧
    S / (calc_impl S T).div * (calc_impl S T).mul % U32 = T ∧
    (S / (calc_impl S T).div * (calc_impl S T).mul < U32 →
      S / (calc_impl S T).div * (calc_impl S T).mul = T) ∧
    (S ≤ 268435455 → S / (calc_impl S T).div * (calc_impl S T).mul = T) := by
  rcases calc_impl_spec S T with ⟨h0, _⟩ | ⟨⟨h1, h2, h3, h4, h5⟩, _⟩
  · exact absurd h0 h
  · have hmod : S / (calc_impl S T).div * (calc_impl S T).mul % U32 = T := h5
    have hexact : S / (calc_impl S T).div * (calc_impl S T).mul < U32 →
        S / (calc_impl S T).div * (calc_impl S T).mul = T := by
      intro hlt
      rw [Nat.mod_eq_of_lt hlt] at hmod
      exact hmod
    refine ⟨h1, h2, h3, h4, hmod, hexact, ?_⟩
    intro hS
    apply hexact
    have hle : S / (calc_impl S T).div * (calc_impl S T).mul ≤ S * 16 :=
      Nat.mul_le_mul (Nat.div_le_self _ _) h4
    unfold U32
    omega

/-- C2, amended, at `S = 8000000`, `T = 72000000`. -/
theorem calc_impl_sound_mod_witness :
    calc_impl 8000000 72000000 ≠ ⟨0, 0⟩ ∧
    (1 ≤ (calc_impl 8000000 72000000).div ∧ (calc_impl 8000000 72000000).div ≤ 16 ∧
    2 ≤ (calc_impl 8000000 72000000).mul ∧ (calc_impl 8000000 72000000).mul ≤ 16 ∧
    8000000 / (calc_impl 8000000 72000000).div * (calc_impl 8000000 72000000).mul
      % U32 = 72000000 ∧
    (8000000 / (calc_impl 8000000 72000000).div * (calc_impl 8000000 72000000).mul < U32 →
      8000000 / (calc_impl 8000000 72000000).div * (calc_impl 8000000 72000000).mul
        = 72000000) ∧
    (8000000 ≤ 268435455 →
      8000000 / (calc_impl 8000000 72000000).div * (calc_impl 8000000 72000000).mul
        = 72000000)) :=
  ⟨by decide, calc_impl_sound_mod 8000000 72000000 (by decide)⟩

/-- C3. Solver failure: `calc_impl` returns the sentinel `(0, 0)` exactly when no
divider in 1..16 and multiplier in 2..16 satisfy `S / d * m == T` (as the code evaluates
it, on `uint32_t`); the static assertion of `calc` fails exactly then; a result other
than the sentinel has both components nonzero; and for `S = 8000000`, `T = 8000001`
the solver signals failure. -/
theorem calc_impl_failure_iff (S T : Nat) :
    (calc_impl S T = ⟨0, 0⟩ ↔
      ¬ ∃ d m, 1 ≤ d ∧ d ≤ 16 ∧ 2 ≤ m ∧ m ≤ 16 ∧ S / d * m % U32 = T) ∧
    (calc_pll S T = none ↔ calc_impl S T = ⟨0, 0⟩) ∧
    (calc_impl S T ≠ ⟨0, 0⟩ → (calc_impl S T).div ≠ 0 ∧ (calc_impl S T).mul ≠ 0) ∧
    calc_impl 8000000 8000001 = ⟨0, 0⟩ ∧ calc_pll 8000000 8000001 = none := by
  have hspec := calc_impl_spec S T
  have hnz : calc_impl S T ≠ ⟨0, 0⟩ →
      (calc_impl S T).div ≠ 0 ∧ (calc_impl S T).mul ≠ 0 := by
    intro hne
    rcases hspec with ⟨h0, _⟩ | ⟨⟨h1, _, h3, _, _⟩, _⟩
    · exact absurd h0 hne
    · exact ⟨by omega, by omega⟩
  refine ⟨?_, ?_, hnz, by decide, by decide⟩
  · constructor
    · intro h0
      rintro ⟨d, m, hdm⟩
      rcases hspec with ⟨_, hno⟩ | ⟨⟨h1, _, _, _, _⟩, _⟩
      · exact hno d m hdm
      · rw [h0] at h1
        exact absurd h1 (by decide)
    · intro hno
      rcases hspec with ⟨h0, _⟩ | ⟨hs, _⟩
      · exact h0
      · exact absurd ⟨_, _, hs⟩ hno
  · unfold calc_pll
    constructor
    · intro hnone
      by_contra hne
      obtain ⟨hd, hm⟩ := hnz hne
      simp [hd, hm] at hnone
    · intro h0
      simp [h0]

/-! ## The configure sequence -/

/-- C4 fails on the code: `HSI` is an accepted source, the target `64` is eight times
`HSI::value` and differs from it, the solver succeeds with `(1, 8)`, yet the sequence
of `configure` ends after `PLLON = 0`: it stores nothing into `PLLMUL` or `PREDIV`,
never stores `PLLON = 1` and never waits for `PLLRDY`. The same holds for `HSI` with
every target. -/
theorem configure_HSI_scaled_skips_pll :
    default_clocks_assert (.source .HSI) = true ∧
    64 = 8 * Source.HSI.value ∧ 64 ≠ Source.HSI.value ∧
    calc_pll Source.HSI.value 64 = some ⟨1, 8⟩ ∧
    configure .HSI 64 = some
      [.write .LATENCY 0, .write .HSION 1, .wait .HSIRDY true, .write .SW 0,
       .write .HSEON 0, .write .PLLON 0] ∧
    default_clocks (.source .HSI) 64 = configure .HSI 64 ∧
    ∀ T, ∃ ops, configure .HSI T = some ops ∧
      writesTo .PLLMUL ops = [] ∧ writesTo .PREDIV ops = [] ∧
      writesTo .PLLON ops = [0] ∧ Op.wait .PLLRDY true ∉ ops := by
  refine ⟨by decide, by decide, by decide, by decide, by decide, by decide, ?_⟩
  intro T
  refine ⟨_, configure_HSI T, ?_⟩
  simp [writesTo]

/-- C5. Flash latency thresholds: in every sequence of `configure`, whatever the source,
the values stored into `LATENCY` are exactly one value: 0 for a target below 24000000,
1 for a target from 24000000 and below 48000000, 2 from 48000000 on. -/
theorem configure_latency_value (xtal : Source) (T : Nat) (ops : List Op)
    (h : configure xtal T = some ops) :
    writesTo .LATENCY ops =
      [if T < 24000000 then 0 else if T < 48000000 then 1 else 2] := by
  obtain ⟨rest, hops, hrest⟩ := configure_shape xtal T ops h
  rw [hops]
  simp [writesTo, writesTo_LATENCY_nil rest hrest]

/-- C5 at the targets 20, 30 and 50 MHz and at the two thresholds 24 and 48 MHz, from
external sources of 10 and 8 MHz and from `HSI`: the stored latencies are 0, 1, 2, 1
and 2. -/
theorem configure_latency_value_witness :
    (∃ ops, configure (.XTAL 10000000 .XTAL) 20000000 = some ops ∧
      writesTo .LATENCY ops = [0]) ∧
    (∃ ops, configure (.XTAL 10000000 .XTAL) 30000000 = some ops ∧
      writesTo .LATENCY ops = [1]) ∧
    (∃ ops, configure (.XTAL 10000000 .XTAL) 50000000 = some ops ∧
      writesTo .LATENCY ops = [2]) ∧
    (∃ ops, configure (.XTAL 8000000 .XTAL) 24000000 = some ops ∧
      writesTo .LATENCY ops = [1]) ∧
    (∃ ops, configure .HSI 48000000 = some ops ∧ writesTo .LATENCY ops = [2]) :=
  ⟨⟨_, rfl, configure_latency_value (.XTAL 10000000 .XTAL) 20000000 _ rfl⟩,
   ⟨_, rfl, configure_latency_value (.XTAL 10000000 .XTAL) 30000000 _ rfl⟩,
   ⟨_, rfl, configure_latency_value (.XTAL 10000000 .XTAL) 50000000 _ rfl⟩,
   ⟨_, rfl, configure_latency_value (.XTAL 8000000 .XTAL) 24000000 _ rfl⟩,
   ⟨_, rfl, configure_latency_value .HSI 48000000 _ rfl⟩⟩

/-- C6. Latency first: every sequence of `configure` starts with the store into
`LATENCY`; no other store into `LATENCY` follows, so exactly one occurs; and every
store into any other field (the selector `SW`, the enable bits `HSION`, `HSEON`,
`PLLON`, ...) stands at a later position. -/
theorem configure_latency_first (xtal : Source) (T : Nat) (ops : List Op)
    (h : configure xtal T = some ops) :
    (∃ v rest, ops = Op.write .LATENCY v :: rest ∧
      ∀ op ∈ rest, ∀ w, op ≠ Op.write .LATENCY w) ∧
    (writesTo .LATENCY ops).length = 1 ∧
    ∀ i f w, f ≠ Field.LATENCY → ops[i]? = some (Op.write f w) → 0 < i := by
  obtain ⟨rest, hops, hrest⟩ := configure_shape xtal T ops h
  refine ⟨⟨_, rest, hops, hrest⟩, ?_, ?_⟩
  · rw [hops]
    simp [writesTo, writesTo_LATENCY_nil rest hrest]
  · intro i f w hf hi
    rcases Nat.eq_zero_or_pos i with h0 | hpos
    · subst h0
      rw [hops] at hi
      simp only [List.getElem?_cons_zero, Option.some.injEq, Op.write.injEq] at hi
      exact absurd hi.1.symm hf
    · exact hpos

/-- C6 at an external 8 MHz resonator with target 72 MHz. -/
theorem configure_latency_first_witness :
    ∃ ops, configure (.XTAL 8000000 .XTAL) 72000000 = some ops ∧
      ((∃ v rest, ops = Op.write .LATENCY v :: rest ∧
        ∀ op ∈ rest, ∀ w, op ≠ Op.write .LATENCY w) ∧
      (writesTo .LATENCY ops).length = 1 ∧
      ∀ i f w, f ≠ Field.LATENCY → ops[i]? = some (Op.write f w) → 0 < i) :=
  ⟨_, rfl, configure_latency_first (.XTAL 8000000 .XTAL) 72000000 _ rfl⟩

/-- C7. Field encoding: on the PLL path (a source other than `HSI`, a target different
from its frequency) with solver result `(d, m)`, the sequence of `configure` stores
exactly `m - 2` into `PLLMUL` and exactly `d - 1` into `PREDIV`; the subtractions do
not wrap (`2 ≤ m`, `1 ≤ d`) and the values fit the 4-bit fields (`m - 2 ≤ 14`,
`d - 1 ≤ 15`). -/
theorem configure_pll_field_encoding (xtal : Source) (T d m : Nat)
    (hx : xtal ≠ .HSI) (hT : T ≠ xtal.value)
    (hs : calc_pll xtal.value T = some ⟨d, m⟩) :
    ∃ ops, configure xtal T = some ops ∧
      writesTo .PLLMUL ops = [m - 2] ∧ writesTo .PREDIV ops = [d - 1] ∧
      2 ≤ m ∧ m - 2 ≤ 14 ∧ 1 ≤ d ∧ d - 1 ≤ 15 ∧
      sub32 m 2 = m - 2 ∧ sub32 d 1 = d - 1 ∧
      m - 2 < 2 ^ Field.PLLMUL.width ∧ d - 1 < 2 ^ Field.PREDIV.width := by
  have himpl : calc_impl xtal.value T = ⟨d, m⟩ := by
    unfold calc_pll at hs
    simp only at hs
    split at hs
    · exact Option.some.inj hs
    · exact absurd hs (by simp)
  have hnz : calc_impl xtal.value T ≠ ⟨0, 0⟩ := by
    intro h0
    unfold calc_pll at hs
    simp [h0] at hs
  obtain ⟨hd1, hd2, hm1, hm2, _⟩ := calc_impl_sound_range xtal.value T hnz
  rw [himpl] at hd1 hd2 hm1 hm2
  simp only at hd1 hd2 hm1 hm2
  have e1 : sub32 m 2 = m - 2 := by unfold sub32 U32; omega
  have e2 : sub32 d 1 = d - 1 := by unfold sub32 U32; omega
  have e3 : (m - 2) % 16 = m - 2 := by omega
  have e4 : (d - 1) % 16 = d - 1 := by omega
  cases xtal with
  | HSI => exact absurd rfl hx
  | XTAL freq t =>
    simp only [Source.value] at hT hs
    unfold configure
    simp only [is_same_HSI, Source.value, hs, bne_iff_ne, ne_eq, hT, not_false_eq_true,
      Bool.false_and, if_true, if_false, Bool.false_eq_true]
    refine ⟨_, rfl, ?_⟩
    refine ⟨?_, ?_, hm1, by omega, hd1, by omega, e1, e2, ?_, ?_⟩
    · cases t <;> split_ifs <;>
        simp [writesTo, assign, Field.width, Source.type, e1, e3]
    · cases t <;> split_ifs <;>
        simp [writesTo, assign, Field.width, Source.type, e2, e4]
    · simp only [Field.width]; omega
    · simp only [Field.width]; omega

/-- C7 at the solved pair `(4, 9)` (source 32 MHz, target 72 MHz): `PLLMUL` receives 7
and `PREDIV` receives 3. -/
theorem configure_pll_field_encoding_witness :
    calc_pll 32000000 72000000 = some ⟨4, 9⟩ ∧
    ∃ ops, configure (.XTAL 32000000 .XTAL) 72000000 = some ops ∧
      writesTo .PLLMUL ops = [7] ∧ writesTo .PREDIV ops = [3] ∧
      2 ≤ 9 ∧ 9 - 2 ≤ 14 ∧ 1 ≤ 4 ∧ 4 - 1 ≤ 15 ∧
      sub32 9 2 = 9 - 2 ∧ sub32 4 1 = 4 - 1 ∧
      9 - 2 < 2 ^ Field.PLLMUL.width ∧ 4 - 1 < 2 ^ Field.PREDIV.width :=
  ⟨by decide,
    configure_pll_field_encoding (.XTAL 32000000 .XTAL) 72000000 4 9
      (by decide) (by decide) (by decide)⟩

/-- C8 fails on the code, at the descriptor `XTAL<8000000, XTAL_traits::DIRECT>` with
target 72000000. The class `default_clocks` rejects every `DIRECT` descriptor at its
`static_assert`, so no sequence exists for it; and the body of `configure`, for that
descriptor, stores `HSEON = 1` at position 1 and `HSEBYP = 1` at position 2, so the
bypass store comes after the enabling store, not before it. The same order holds in the
body for every `DIRECT` descriptor and every target. -/
theorem configure_DIRECT_bypass_after_enable :
    default_clocks_assert (.source (.XTAL 8000000 .DIRECT)) = false ∧
    (∀ freq T, default_clocks (.source (.XTAL freq .DIRECT)) T = none) ∧
    configure (.XTAL 8000000 .DIRECT) 72000000 = some
      [.write .LATENCY 2, .write .HSEON 1, .write .HSEBYP 1, .wait .HSERDY true,
       .write .HSION 0, .write .SW 1, .write .PLLON 0, .wait .PLLRDY false,
       .write .PLLMUL 7, .write .PREDIV 0, .write .PLLON 1, .wait .PLLRDY true] ∧
    precedes (.write .HSEBYP 1) (.write .HSEON 1)
      [.write .LATENCY 2, .write .HSEON 1, .write .HSEBYP 1, .wait .HSERDY true,
       .write .HSION 0, .write .SW 1, .write .PLLON 0, .wait .PLLRDY false,
       .write .PLLMUL 7, .write .PREDIV 0, .write .PLLON 1, .wait .PLLRDY true] = false ∧
    precedes (.write .HSEON 1) (.write .HSEBYP 1)
      [.write .LATENCY 2, .write .HSEON 1, .write .HSEBYP 1, .wait .HSERDY true,
       .write .HSION 0, .write .SW 1, .write .PLLON 0, .wait .PLLRDY false,
       .write .PLLMUL 7, .write .PREDIV 0, .write .PLLON 1, .wait .PLLRDY true] = true ∧
    (∀ freq T ops, configure (.XTAL freq .DIRECT) T = some ops →
      precedes (.write .HSEBYP 1) (.write .HSEON 1) ops = false ∧
      precedes (.write .HSEON 1) (.write .HSEBYP 1) ops = true) := by
  refine ⟨rfl, fun freq T => rfl, by decide, by decide, by decide, ?_⟩
  intro freq T ops h
  obtain ⟨_, h1, h2⟩ := configure_DIRECT_body freq T ops h
  exact ⟨h2, h1⟩

/-- C9 fails on the code: the check of `default_clocks` holds exactly for `HSI` and for
the descriptors `XTAL<f, XTAL_traits::XTAL>`; the descriptor
`XTAL<8000000, XTAL_traits::DIRECT>` does not pass it, so `default_clocks` cannot be
instantiated with it for any target. -/
theorem default_clocks_assert_rejects_DIRECT :
    default_clocks_assert (.source (.XTAL 8000000 .DIRECT)) = false ∧
    (∀ T, default_clocks (.source (.XTAL 8000000 .DIRECT)) T = none) ∧
    (∀ x, default_clocks_assert x = true ↔
      x = .source .HSI ∨ ∃ f, x = .source (.XTAL f .XTAL)) := by
  refine ⟨rfl, fun T => rfl, ?_⟩
  intro x
  cases x with
  | source s =>
    cases s with
    | HSI => simp [default_clocks_assert, is_same_HSI]
    | XTAL f t => cases t <;> simp [default_clocks_assert, is_same_HSI, is_XTAL]
  | other tag => simp [default_clocks_assert, is_same_HSI, is_XTAL]

/-- C10 fails on the code: `HSI` derives from `XTAL<8>`, so `HSI::value` is 8, not
`8_MHz = 8000000`, and `default_clocks<HSI>` with its default target has
`SYSCLK == 8`. -/
theorem HSI_value_eq_8 :
    Source.HSI.value = 8 ∧ MHz 8 = 8000000 ∧ Source.HSI.value ≠ MHz 8 ∧
    SYSCLK .HSI (default_target .HSI) = 8 ∧
    SYSCLK .HSI (default_target .HSI) ≠ 8000000 := by
  decide

/-! ## End-to-end sequences -/

/-- C11. External resonator with PLL: for every external source of kind
`XTAL_traits::XTAL` with frequency `S` and every target `T` different from `S` that the
solver reaches with `(d, m)`, the sequence of `configure` is exactly: the `LATENCY`
store (by the thresholds), `HSEON = 1` (no `HSEBYP` store), wait until `HSERDY` is set,
`HSION = 0`, `SW = HSE`, `PLLON = 0`, wait until `PLLRDY` is clear, `PLLMUL = m - 2`,
`PREDIV = d - 1`, `PLLON = 1`, wait until `PLLRDY` is set; the subtractions are true
ones (`2 ≤ m`, `1 ≤ d`). -/
theorem configure_resonator_pll (S T d m : Nat) (hT : T ≠ S)
    (hs : calc_pll S T = some ⟨d, m⟩) :
    configure (.XTAL S .XTAL) T = some
      [.write .LATENCY (if T < 24000000 then 0 else if T < 48000000 then 1 else 2),
       .write .HSEON 1, .wait .HSERDY true, .write .HSION 0,
       .write .SW CFGR_SW.HSE.toNat, .write .PLLON 0, .wait .PLLRDY false,
       .write .PLLMUL (m - 2), .write .PREDIV (d - 1), .write .PLLON 1,
       .wait .PLLRDY true] ∧
    2 ≤ m ∧ 1 ≤ d := by
  have hnz : calc_impl S T ≠ ⟨0, 0⟩ := by
    intro h0
    unfold calc_pll at hs
    simp [h0] at hs
  have himpl : calc_impl S T = ⟨d, m⟩ := by
    unfold calc_pll at hs
    simp only at hs
    split at hs
    · exact Option.some.inj hs
    · exact absurd hs (by simp)
  obtain ⟨hd1, _, hm1, _, _⟩ := calc_impl_sound_range S T hnz
  rw [himpl] at hd1 hm1
  refine ⟨?_, hm1, hd1⟩
  rw [configure_XTAL_scaled S T d m .XTAL hT hs]
  simp [CFGR_SW.toNat]

/-- C11 at `S = 8000000`, `T = 72000000`: the solver gives `(1, 9)`, and the sequence
stores `LATENCY = 2`, `PLLMUL = 7`, `PREDIV = 0`. -/
theorem configure_resonator_pll_witness :
    calc_pll 8000000 72000000 = some ⟨1, 9⟩ ∧
    (configure (.XTAL 8000000 .XTAL) 72000000 = some
      [.write .LATENCY 2, .write .HSEON 1, .wait .HSERDY true, .write .HSION 0,
       .write .SW 1, .write .PLLON 0, .wait .PLLRDY false, .write .PLLMUL 7,
       .write .PREDIV 0, .write .PLLON 1, .wait .PLLRDY true] ∧
    2 ≤ 9 ∧ 1 ≤ 1) :=
  ⟨by decide, configure_resonator_pll 8000000 72000000 1 9 (by decide) (by decide)⟩

/-- C12. Internal oscillator pass-through: for the source `HSI` with the target equal
to `HSI::value` (the default target), the sequence of `configure` is exactly
`LATENCY = 0`, `HSION = 1`, wait until `HSIRDY` is set, `SW = HSI`, `HSEON = 0`,
`PLLON = 0`; it stores nothing into `PLLMUL` or `PREDIV` and never stores `PLLON = 1`.
The latency is 0 for the target 8000000 as well. -/
theorem configure_HSI_pass_through :
    default_target .HSI = Source.HSI.value ∧
    (∃ ops, configure .HSI Source.HSI.value = some ops ∧
      ops = [.write .LATENCY 0, .write .HSION 1, .wait .HSIRDY true,
        .write .SW CFGR_SW.HSI.toNat, .write .HSEON 0, .write .PLLON 0] ∧
      writesTo .PLLMUL ops = [] ∧ writesTo .PREDIV ops = [] ∧
      Op.write .PLLON 1 ∉ ops) ∧
    (∃ ops, configure .HSI 8000000 = some ops ∧ writesTo .LATENCY ops = [0]) := by
  refine ⟨rfl, ⟨_, rfl, by decide, by decide, by decide, by decide⟩, ⟨_, rfl, by decide⟩⟩

/-- C13 as stated fails: with the target equal to the source frequency the sequence of
`configure` does store into `PLLON` (the value 0), for an external source of 8 MHz as
for `HSI`. -/
theorem configure_pass_PLLON_counterexample :
    configure (.XTAL 8000000 .XTAL) 8000000 = some
      [.write .LATENCY 0, .write .HSEON 1, .wait .HSERDY true, .write .HSION 0,
       .write .SW 1, .write .PLLON 0] ∧
    Op.write .PLLON 0 ∈
      [Op.write .LATENCY 0, .write .HSEON 1, .wait .HSERDY true, .write .HSION 0,
       .write .SW 1, .write .PLLON 0] ∧
    configure .HSI Source.HSI.value = some
      [.write .LATENCY 0, .write .HSION 1, .wait .HSIRDY true, .write .SW 0,
       .write .HSEON 0, .write .PLLON 0] ∧
    Op.write .PLLON 0 ∈
      [Op.write .LATENCY 0, .write .HSION 1, .wait .HSIRDY true, .write .SW 0,
       .write .HSEON 0, .write .PLLON 0] := by
  decide

/-- C13, amended. For every source, with the target equal to the source frequency, the
sequence of `configure` exists and its only PLL-related operation is one store
`PLLON = 0`: nothing is stored into `PLLMUL`, `PREDIV`, `PLLSRC` or `PLLXTPRE`, `PLLON`
is never set to 1, and `PLLRDY` is never read. -/
theorem configure_pass_pll_untouched (xtal : Source) :
    ∃ ops, configure xtal xtal.value = some ops ∧
      writesTo .PLLON ops = [0] ∧
      writesTo .PLLMUL ops = [] ∧ writesTo .PREDIV ops = [] ∧
      writesTo .PLLSRC ops = [] ∧ writesTo .PLLXTPRE ops = [] ∧
      ∀ op ∈ ops, op.field ≠ .PLLRDY := by
  cases xtal with
  | HSI =>
    refine ⟨_, configure_HSI _, ?_⟩
    simp [writesTo, Op.field]
  | XTAL freq t =>
    refine ⟨_, configure_XTAL_pass freq t, ?_⟩
    cases t <;> simp [writesTo, Op.field]

/-! ## Frame properties of the sequence -/

/-- C14. A resonator never bypasses: for the source `HSI` and for every external
source of kind `XTAL_traits::XTAL` (both have `type == XTAL_traits::XTAL`), with every
target, the sequence of `configure` stores nothing into `HSEBYP`; for a source of kind
`DIRECT` it stores the value 1 there, once. So `HSEBYP` is written only for `DIRECT`. -/
theorem configure_HSEBYP_only_DIRECT (xtal : Source) (T : Nat) (ops : List Op)
    (h : configure xtal T = some ops) :
    (xtal.type = .XTAL → writesTo .HSEBYP ops = []) ∧
    (xtal.type = .DIRECT → writesTo .HSEBYP ops = [1]) ∧
    (writesTo .HSEBYP ops ≠ [] → ∃ freq, xtal = .XTAL freq .DIRECT) := by
  rcases configure_cases xtal T ops h with ⟨hx, hops⟩ | ⟨t, hx, hops⟩ |
    ⟨freq, t, d, m, hx, _, _, hops⟩
  · subst hx hops
    simp [writesTo, Source.type]
  · subst hx hops
    cases t <;> simp [writesTo, Source.type]
  · subst hx hops
    cases t <;> simp [writesTo, Source.type]

/-- C14 at the external resonator of 8 MHz with target 72 MHz. -/
theorem configure_HSEBYP_only_DIRECT_witness :
    ∃ ops, configure (.XTAL 8000000 .XTAL) 72000000 = some ops ∧
      ((Source.type (.XTAL 8000000 .XTAL) = .XTAL → writesTo .HSEBYP ops = []) ∧
      (Source.type (.XTAL 8000000 .XTAL) = .DIRECT → writesTo .HSEBYP ops = [1]) ∧
      (writesTo .HSEBYP ops ≠ [] →
        ∃ freq, Source.XTAL 8000000 .XTAL = .XTAL freq .DIRECT)) :=
  ⟨_, rfl, configure_HSEBYP_only_DIRECT (.XTAL 8000000 .XTAL) 72000000 _ rfl⟩

/-- C16 as stated fails: for the source `HSI` with the target 64, different from
`HSI::value`, the sequence of `configure` does store `HSEON = 0`. -/
theorem configure_HSI_scaled_HSEON_counterexample :
    64 ≠ Source.HSI.value ∧
    configure .HSI 64 = some
      [.write .LATENCY 0, .write .HSION 1, .wait .HSIRDY true, .write .SW 0,
       .write .HSEON 0, .write .PLLON 0] ∧
    writesTo .HSEON
      [.write .LATENCY 0, .write .HSION 1, .wait .HSIRDY true, .write .SW 0,
       .write .HSEON 0, .write .PLLON 0] = [0] := by
  decide

/-- C16, amended. For the source `HSI` and every target, different from `HSI::value` or
equal to it, the sequence of `configure` begins with the `LATENCY` store, `HSION = 1`,
the wait for `HSIRDY`, `SW = HSI` and then `HSEON = 0`: both branches disable the
external oscillator, with one store. -/
theorem configure_HSI_disables_HSE (T : Nat) :
    ∃ ops v rest, configure .HSI T = some ops ∧
      ops = Op.write .LATENCY v :: Op.write .HSION 1 :: Op.wait .HSIRDY true ::
        Op.write .SW CFGR_SW.HSI.toNat :: Op.write .HSEON 0 :: rest ∧
      writesTo .HSEON ops = [0] := by
  refine ⟨_, _, _, configure_HSI T, rfl, ?_⟩
  simp [writesTo]

/-- C19. The PLL is never selected nor sourced: in every sequence of `configure` there
is exactly one store into `SW`, its value is `HSI` for the source `HSI` and `HSE` for an
external source, never `PLL`; nothing is stored into `PLLSRC`; so the last value
stored into `SW` is the requested source, whatever the target. -/
theorem configure_SW_is_source (xtal : Source) (T : Nat) (ops : List Op)
    (h : configure xtal T = some ops) :
    writesTo .SW ops =
      [if xtal = .HSI then CFGR_SW.HSI.toNat else CFGR_SW.HSE.toNat] ∧
    CFGR_SW.PLL.toNat ∉ writesTo .SW ops ∧
    (writesTo .SW ops).length = 1 ∧
    writesTo .PLLSRC ops = [] ∧
    lastWrite .SW ops =
      some (if xtal = .HSI then CFGR_SW.HSI.toNat else CFGR_SW.HSE.toNat) := by
  rcases configure_cases xtal T ops h with ⟨hx, hops⟩ | ⟨t, hx, hops⟩ |
    ⟨freq, t, d, m, hx, _, _, hops⟩
  · subst hx hops
    simp [writesTo, lastWrite, CFGR_SW.toNat]
  · subst hx hops
    cases t <;> simp [writesTo, lastWrite, CFGR_SW.toNat]
  · subst hx hops
    cases t <;> simp [writesTo, lastWrite, CFGR_SW.toNat]

/-- C19 on the PLL path of the external resonator of 8 MHz with target 72 MHz: the one
store into `SW` carries `HSE`. -/
theorem configure_SW_is_source_witness :
    ∃ ops, configure (.XTAL 8000000 .XTAL) 72000000 = some ops ∧
      (writesTo .SW ops = [1] ∧
      CFGR_SW.PLL.toNat ∉ writesTo .SW ops ∧
      (writesTo .SW ops).length = 1 ∧
      writesTo .PLLSRC ops = [] ∧
      lastWrite .SW ops = some 1) :=
  ⟨_, rfl, configure_SW_is_source (.XTAL 8000000 .XTAL) 72000000 _ rfl⟩

/-- C15. PLL reconfiguration ordering: in every sequence of `configure`, every store
into `PLLMUL` or `PREDIV` has before it a store `PLLON = 0` followed by a wait for
`PLLRDY` to read clear, with no store `PLLON = 1` between that `PLLON = 0` and the
field store; and every store `PLLON = 1` comes after all stores into `PLLMUL` and
`PREDIV` and after a store `PLLON = 0`, with no other `PLLON = 1` between them. -/
theorem configure_pll_order (xtal : Source) (T : Nat) (ops : List Op)
    (h : configure xtal T = some ops) :
    (∀ (i v : Nat), (ops[i]? = some (Op.write .PLLMUL v) ∨ ops[i]? = some (Op.write .PREDIV v)) →
      ∃ j k : Nat, j < k ∧ k < i ∧ ops[j]? = some (Op.write .PLLON 0) ∧
        ops[k]? = some (Op.wait .PLLRDY false) ∧
        ∀ l : Nat, j < l → l < i → ops[l]? ≠ some (Op.write .PLLON 1)) ∧
    (∀ i : Nat, ops[i]? = some (Op.write .PLLON 1) →
      (∀ (l v : Nat), (ops[l]? = some (Op.write .PLLMUL v) ∨ ops[l]? = some (Op.write .PREDIV v)) →
        l < i) ∧
      ∃ j : Nat, j < i ∧ ops[j]? = some (Op.write .PLLON 0) ∧
        ∀ l : Nat, j < l → l < i → ops[l]? ≠ some (Op.write .PLLON 1)) := by
  have key : PllOrdered ops := by
    rcases configure_cases xtal T ops h with ⟨_, hops⟩ | ⟨t, _, hops⟩ |
      ⟨freq, t, d, m, _, _, _, hops⟩
    · subst hops
      apply PllOrdered_of_no_pll
      simp [Op.field]
    · subst hops
      apply PllOrdered_of_no_pll
      cases t <;> simp [Op.field]
    · have hsplit : ops =
          ([Op.write .LATENCY (if T < 24000000 then 0 else if T < 48000000 then 1 else 2),
            Op.write .HSEON 1] ++
           (if t = .DIRECT then [Op.write .HSEBYP 1] else []) ++
           [Op.wait .HSERDY true, Op.write .HSION 0, Op.write .SW 1]) ++
          [Op.write .PLLON 0, Op.wait .PLLRDY false, Op.write .PLLMUL (m - 2),
           Op.write .PREDIV (d - 1), Op.write .PLLON 1, Op.wait .PLLRDY true] := by
        rw [hops]; simp
      rw [hsplit]
      apply PllOrdered_of_tail
      cases t <;> simp [Op.field]
  exact key

/-- C15 on the PLL path of the external resonator of 8 MHz with target 72 MHz, where
`PLLMUL` is stored at position 7, `PREDIV` at 8 and `PLLON = 1` at 9. -/
theorem configure_pll_order_witness :
    ∃ ops, configure (.XTAL 8000000 .XTAL) 72000000 = some ops ∧
      ops[7]? = some (Op.write .PLLMUL 7) ∧ ops[8]? = some (Op.write .PREDIV 0) ∧
      ops[9]? = some (Op.write .PLLON 1) ∧
      ((∀ (i v : Nat), (ops[i]? = some (Op.write .PLLMUL v) ∨
            ops[i]? = some (Op.write .PREDIV v)) →
        ∃ j k : Nat, j < k ∧ k < i ∧ ops[j]? = some (Op.write .PLLON 0) ∧
          ops[k]? = some (Op.wait .PLLRDY false) ∧
          ∀ l : Nat, j < l → l < i → ops[l]? ≠ some (Op.write .PLLON 1)) ∧
      (∀ i : Nat, ops[i]? = some (Op.write .PLLON 1) →
        (∀ (l v : Nat), (ops[l]? = some (Op.write .PLLMUL v) ∨
            ops[l]? = some (Op.write .PREDIV v)) → l < i) ∧
        ∃ j : Nat, j < i ∧ ops[j]? = some (Op.write .PLLON 0) ∧
          ∀ l : Nat, j < l → l < i → ops[l]? ≠ some (Op.write .PLLON 1))) :=
  ⟨_, rfl, by decide, by decide, by decide,
    configure_pll_order (.XTAL 8000000 .XTAL) 72000000 _ rfl⟩

/-! ## Truncation and wrap-around in the solver -/

/-- C17 as stated fails: for `S = 10`, `T = 6` the solver returns `(3, 2)`, because
`10 / 3 * 2 = 6` with the truncating division, although 3 does not divide `10 * 2` and
the true ratio `10 * 2 / 3` is not 6. -/
theorem calc_impl_ratio_counterexample :
    calc_impl 10 6 = ⟨3, 2⟩ ∧
    ¬ (calc_impl 10 6).div ∣ 10 * (calc_impl 10 6).mul ∧
    (10 : ℚ) * ((calc_impl 10 6).mul : ℚ) / ((calc_impl 10 6).div : ℚ) ≠ 6 := by
  have h : calc_impl 10 6 = ⟨3, 2⟩ := by decide
  rw [h]
  refine ⟨rfl, by decide, ?_⟩
  norm_num

/-- C17, amended. A pair `(d, m)` returned by the solver yields the target as a true
ratio, `d` dividing `S * m` and `S * m / d = T` over the rationals, whenever `d` divides
`S` and the product `S / d * m` is below `2 ^ 32`. -/
theorem calc_impl_ratio_of_dvd (S T : Nat) (h : calc_impl S T ≠ ⟨0, 0⟩)
    (hdvd : (calc_impl S T).div ∣ S)
    (hlt : S / (calc_impl S T).div * (calc_impl S T).mul < U32) :
    (calc_impl S T).div ∣ S * (calc_impl S T).mul ∧
    S * (calc_impl S T).mul / (calc_impl S T).div = T ∧
    (S : ℚ) * ((calc_impl S T).mul : ℚ) / ((calc_impl S T).div : ℚ) = (T : ℚ) := by
  obtain ⟨hd1, _, _, _, hm⟩ := calc_impl_sound_range S T h
  unfold matches32 at hm
  rw [Nat.mod_eq_of_lt hlt] at hm
  generalize (calc_impl S T).div = d at hd1 hdvd hm
  generalize (calc_impl S T).mul = m at hm
  obtain ⟨q, rfl⟩ := hdvd
  have hdpos : 0 < d := hd1
  rw [Nat.mul_div_cancel_left q hdpos] at hm
  subst hm
  refine ⟨⟨q * m, by ring⟩, ?_, ?_⟩
  · rw [Nat.mul_assoc, Nat.mul_div_cancel_left _ hdpos]
  · have hd0 : (d : ℚ) ≠ 0 := by exact_mod_cast (Nat.pos_iff_ne_zero.mp hdpos)
    push_cast
    field_simp
    ring

/-- C17, amended, at `S = 8000000`, `T = 72000000`, where the solver returns `(1, 9)`. -/
theorem calc_impl_ratio_of_dvd_witness :
    calc_impl 8000000 72000000 ≠ ⟨0, 0⟩ ∧
    (calc_impl 8000000 72000000).div ∣ 8000000 ∧
    8000000 / (calc_impl 8000000 72000000).div * (calc_impl 8000000 72000000).mul < U32 ∧
    ((calc_impl 8000000 72000000).div ∣ 8000000 * (calc_impl 8000000 72000000).mul ∧
    8000000 * (calc_impl 8000000 72000000).mul / (calc_impl 8000000 72000000).div
      = 72000000 ∧
    ((8000000 : ℕ) : ℚ) * ((calc_impl 8000000 72000000).mul : ℚ)
      / ((calc_impl 8000000 72000000).div : ℚ) = ((72000000 : ℕ) : ℚ)) :=
  ⟨by decide, by decide, by decide,
    calc_impl_ratio_of_dvd 8000000 72000000 (by decide) (by decide) (by decide)⟩

/-- C18. Overflow-free range: for every source frequency `S ≤ 268435455` (so that
`S * 16 < 2 ^ 32`) and every target, `calc_impl`, computing on `uint32_t`, returns the
result of the solver over unbounded natural numbers, pair or sentinel alike. Outside
that range they can differ: for `S = 3 * 2^30`, `T = 2^31` the wrapped product of
`(1, 2)` equals `T` and `calc_impl` returns `(1, 2)`, the exact solver `(3, 2)`. -/
theorem calc_impl_eq_solve_exact (S T : Nat) (hS : S ≤ 268435455) :
    calc_impl S T = solve_exact S T ∧
    268435455 * 16 < U32 ∧
    calc_impl 3221225472 2147483648 = ⟨1, 2⟩ ∧
    solve_exact 3221225472 2147483648 = ⟨3, 2⟩ ∧
    calc_impl 3221225472 2147483648 ≠ solve_exact 3221225472 2147483648 := by
  refine ⟨?_, by decide, by decide, by decide, by decide⟩
  unfold calc_impl solve_exact
  exact calc_impl_div_eq_findSome S T (fun d k hk => matches32_iff_exact S T d k hS hk)
    16 1 rfl

/-- C18 at `S = 8000000`, `T = 72000000` (both solvers return `(1, 9)`) and at
`S = 8000000`, `T = 8000001` (both return the sentinel). -/
theorem calc_impl_eq_solve_exact_witness :
    8000000 ≤ 268435455 ∧
    solve_exact 8000000 72000000 = ⟨1, 9⟩ ∧
    solve_exact 8000000 8000001 = ⟨0, 0⟩ ∧
    calc_impl 8000000 8000001 = solve_exact 8000000 8000001 ∧
    (calc_impl 8000000 72000000 = solve_exact 8000000 72000000 ∧
    268435455 * 16 < U32 ∧
    calc_impl 3221225472 2147483648 = ⟨1, 2⟩ ∧
    solve_exact 3221225472 2147483648 = ⟨3, 2⟩ ∧
    calc_impl 3221225472 2147483648 ≠ solve_exact 3221225472 2147483648) :=
  ⟨by decide, by decide, by decide, by decide,
    calc_impl_eq_solve_exact 8000000 72000000 (by decide)⟩

end STM32F334
